import Mathlib

/-
Verification development for the Shopify custom-design fulfillment pipeline.
The repository has three JavaScript sources: a live webhook server whose
handler processes an order-creation payload, and a manual-recovery script
whose core function processOrderPayload mirrors the handler, driven by a
batch orchestrator (main) that replays historical orders.

This file gives a shallow embedding of that pipeline: JavaScript strings are
modelled as Lean String values (character lists), the JS string methods used
by the sources (toUpperCase, toLowerCase, replace with a string pattern,
regex whitespace collapse, includes, split, trim) are modelled as executable
Lean functions with the same semantics on ASCII data, zip archives are
association lists from relative paths to byte lists (mirroring the JSZip
files object, whose file method overwrites an existing path), and the
external services (template bucket, raster compositor, design bucket, order
platform) are an explicit environment of oracles. Exceptions thrown inside
the single try block of the handler are modelled by an aborting fold.
-/

namespace ShopifyCustomDesign

/-! ## JavaScript string primitives -/

/-- Whitespace class of the JS regex backslash-s, restricted to ASCII. -/
def isJsWs (c : Char) : Bool :=
  c = ' ' || c = '\t' || c = '\n' || c = '\r' || c = '\x0b' || c = '\x0c'

/-- Replace every maximal run of whitespace by one underscore, as the JS
regex replace of backslash-s-plus with an underscore does globally.
The boolean records whether the previous character was whitespace. -/
def collapseWsAux : Bool → List Char → List Char
  | _, [] => []
  | prevWs, c :: cs =>
    if isJsWs c then
      if prevWs then collapseWsAux true cs
      else '_' :: collapseWsAux true cs
    else c :: collapseWsAux false cs

/-- Model of s.replace(regex backslash-s-plus global, underscore). -/
def wsToUnderscore (s : String) : String := ⟨collapseWsAux false s.data⟩

/-- Model of JS toUpperCase on ASCII data. -/
def jsToUpper (s : String) : String := ⟨s.data.map Char.toUpper⟩

/-- Model of JS toLowerCase on ASCII data. -/
def jsToLower (s : String) : String := ⟨s.data.map Char.toLower⟩

/-- Replace the first occurrence of pat (a plain string pattern, as in the
JS String.replace with a string first argument, which substitutes only the
first match) by repl; identity when pat does not occur. -/
def replaceFirstL (pat repl : List Char) : List Char → List Char
  | [] => if pat = ([] : List Char) then repl else []
  | c :: cs =>
    if pat.isPrefixOf (c :: cs) then repl ++ (c :: cs).drop pat.length
    else c :: replaceFirstL pat repl cs

/-- Model of s.replace(pat, repl) with a string pattern. -/
def jsReplaceFirst (s pat repl : String) : String :=
  ⟨replaceFirstL pat.data repl.data s.data⟩

/-- Substring occurrence test on character lists. -/
def containsSubL (hay pat : List Char) : Bool :=
  match hay with
  | [] => pat.isEmpty
  | _ :: t => pat.isPrefixOf hay || containsSubL t pat

/-- Model of JS String.includes. -/
def jsIncludes (s sub : String) : Bool := containsSubL s.data sub.data

/-- Worker for the split: scan left to right for the non-empty separator;
acc holds the reversed chars of the current field. The first argument is
fuel bounding the number of steps, so that the recursion is structural;
every step consumes at least one character, so fuel equal to the length
of the scanned text makes the zero-fuel branch unreachable. -/
def jsSplitAux (sep : List Char) : Nat → List Char → List Char → List (List Char)
  | 0, _, acc => [acc.reverse]
  | _ + 1, [], acc => [acc.reverse]
  | fuel + 1, c :: cs, acc =>
    if sep.isPrefixOf (c :: cs) then
      acc.reverse :: jsSplitAux sep fuel ((c :: cs).drop sep.length) []
    else jsSplitAux sep fuel cs (c :: acc)

/-- Model of JS String.split with a non-empty string separator. -/
def jsSplit (s sep : String) : List String :=
  match sep.data with
  | [] => [s]
  | s0 :: srest => (jsSplitAux (s0 :: srest) s.data.length s.data []).map (fun l => ⟨l⟩)

/-- Model of JS String.trim on ASCII data. -/
def jsTrim (s : String) : String :=
  ⟨((s.data.dropWhile isJsWs).reverse.dropWhile isJsWs).reverse⟩

/-! ## Data model (inbound event contract) -/

/-- One entry of a line item's properties array: a name/value pair.
A missing or null value in JS is modelled by the empty string, which is
exactly what the falsiness test in the sources distinguishes. -/
structure Property where
  name : String
  value : String
deriving DecidableEq, Repr

/-- A line item of the order payload. -/
structure LineItem where
  id : Nat
  title : String
  variant_title : String
  properties : List Property
deriving DecidableEq, Repr

/-- The order payload consumed by the handler and by processOrderPayload.
The note field is an Option because the JS value may be null. -/
structure OrderPayload where
  name : String
  note : Option String
  admin_graphql_api_id : String
  line_items : List LineItem
deriving DecidableEq, Repr

/-! ## Archives (the JSZip files object) -/

/-- Bytes of a stored object. -/
abbrev Bytes := List Nat

/-- A zip archive as an ordered association of relative paths to bytes,
mirroring Object.entries of the JSZip files object. -/
abbrev Bundle := List (String × Bytes)

/-- Does a relative path end with template.png, as the regex used with
zip.file and the endsWith test in the copy loop both check. -/
def endsWithTemplatePng (p : String) : Bool :=
  "template.png".data.isSuffixOf p.data

/-- Model of the JSZip file method: setting a path that already exists
overwrites it in place, a new path is appended. -/
def zipSet (entries : Bundle) (path : String) (data : Bytes) : Bundle :=
  if entries.any (fun e => e.1 == path) then
    entries.map (fun e => if e.1 == path then (path, data) else e)
  else entries ++ [(path, data)]

/-- The repackaging step of both sources: find the entry matching the
template.png pattern (the source throws if there is none, modelled by
none), copy every entry that does not end in template.png, then add the
composited raster under the fixed name design.png. -/
def repack (bundle : Bundle) (raster : Bytes) : Option Bundle :=
  match bundle.find? (fun e => endsWithTemplatePng e.1) with
  | none => none
  | some _ =>
      some (zipSet (bundle.filter (fun e => !endsWithTemplatePng e.1))
                   "design.png" raster)

/-! ## Order-platform records seen by the recovery orchestrator -/

/-- A customAttributes entry of the order-query response. -/
structure GqlAttr where
  key : String
  value : String
deriving DecidableEq, Repr

/-- A line item of the order-query response. -/
structure GqlLineItem where
  id : String
  title : String
  variantTitle : String
  customAttributes : List GqlAttr
deriving DecidableEq, Repr

/-- The order node returned by the order-query contract. -/
structure OrderNode where
  id : String
  name : String
  note : Option String
  tags : List String
  lineItems : List GqlLineItem
deriving DecidableEq, Repr

/-! ## Environment of external collaborators -/

/-- External services and ambient configuration: the template bucket as a
partial map from keys to bundles (none models a failing GetObject), the
sharp compositing step as a partial function from template bytes to the
finished raster (none models a decode failure), success of the design
bucket put, the fixed clock value of the run, bucket and region names,
and the order-query oracle used by the recovery orchestrator. -/
structure Env where
  templates : String → Option Bundle
  compose : Bytes → Option Bytes
  putOk : String → Bool
  now : Nat
  region : String
  designsBucket : String
  queryOrder : String → Option OrderNode

/-! ## Template resolver -/

/-- Base filename derivation of the live webhook handler: uppercase the
title, collapse whitespace runs to underscores, then double the first
hyphen (a string-pattern replace, hence first occurrence only). -/
def baseFilenameLive (title : String) : String :=
  jsReplaceFirst (wsToUnderscore (jsToUpper title)) "-" "--"

/-- Base filename derivation of the manual-recovery script: uppercase the
title, collapse whitespace runs to underscores, then replace the first
occurrence of T-SHIRT by T--SHIRT. -/
def baseFilenameRecovery (title : String) : String :=
  jsReplaceFirst (wsToUnderscore (jsToUpper title)) "T-SHIRT" "T--SHIRT"

/-- Light-background classification of the variant descriptor: the
lowercased variant title contains white or golden yellow. -/
def isLightVariant (variant : String) : Bool :=
  jsIncludes (jsToLower variant) "white" || jsIncludes (jsToLower variant) "golden yellow"

/-- Template key resolution of the live webhook handler. -/
def resolveLive (title variant : String) : String :=
  baseFilenameLive title ++
    (if isLightVariant variant then "_FOR_LIGHT.zip" else "_FOR_DARK.zip")

/-- Template key resolution of the manual-recovery script. -/
def resolveRecovery (title variant : String) : String :=
  baseFilenameRecovery title ++
    (if isLightVariant variant then "_FOR_LIGHT.zip" else "_FOR_DARK.zip")

/-! ## Keys, URLs, links, tags, note -/

/-- Key written to the designs bucket: the order name with its first hash
sign removed (string-pattern replace, first occurrence only), the line
item id and the clock value, under the designs/ folder with the zip
extension. Identical in both sources. -/
def designKey (orderName : String) (itemId ts : Nat) : String :=
  "designs/" ++ jsReplaceFirst orderName "#" "" ++ "-" ++ toString itemId ++
    "-" ++ toString ts ++ ".zip"

/-- Artifact URL format of the manual-recovery script (path-style). -/
def recoveryUrl (env : Env) (key : String) : String :=
  "https://s3." ++ env.region ++ ".amazonaws.com/" ++ env.designsBucket ++ "/" ++ key

/-- Artifact URL format of the live webhook handler (virtual-host style). -/
def liveUrl (env : Env) (key : String) : String :=
  "https://" ++ env.designsBucket ++ ".s3." ++ env.region ++ ".amazonaws.com/" ++ key

/-- Note line of the manual-recovery script: the counter is emitted only
when the order has more than one counted custom item. -/
def mkLinkRecovery (orderName : String) (idx total : Nat) (url : String) : String :=
  if total > 1 then
    orderName ++ "-" ++ toString idx ++ "/" ++ toString total ++ "-" ++ url ++ ";"
  else orderName ++ "-" ++ url ++ ";"

/-- Note line of the live webhook handler: the counter is always emitted. -/
def mkLinkLive (orderName : String) (idx total : Nat) (url : String) : String :=
  orderName ++ "-" ++ toString idx ++ "/" ++ toString total ++ "-" ++ url ++ ";"

/-- Classification tag of the manual-recovery script: split the variant
title on the slash separator, take the trimmed color and size parts with
fallbacks for falsy parts, and join with the call sign. -/
def classificationTag (variantTitle callSign : String) : String :=
  let parts := jsSplit variantTitle " / "
  let color := match parts.get? 0 with
    | some c => if c = "" then "UnknownColor" else jsTrim c
    | none => "UnknownColor"
  let size := match parts.get? 1 with
    | some s => if s = "" then "UnknownSize" else jsTrim s
    | none => "UnknownSize"
  color ++ "/" ++ size ++ "/" ++ callSign

/-- New note text: the existing note (when truthy) followed by a blank
line, then the header line and one line per design link. -/
def buildNote (oldNote : Option String) (header : String) (links : List String) : String :=
  (match oldNote with
   | some n => if n = "" then "" else n ++ "\n\n"
   | none => "") ++ header ++ "\n" ++ String.intercalate "\n" links

/-! ## Customizable-item tests -/

/-- First property named call_sign, as the find call in the loop. -/
def findCallSign (it : LineItem) : Option Property :=
  it.properties.find? (fun p => p.name == "call_sign")

/-- Does the item carry any property named call_sign (value ignored), as
the filter computing totalCustomItems does. -/
def hasCallSignProp (it : LineItem) : Bool :=
  it.properties.any (fun p => p.name == "call_sign")

/-- The totalCustomItems count of both sources: items whose properties
name call_sign, regardless of the value. -/
def totalCustomItems (p : OrderPayload) : Nat :=
  (p.line_items.filter hasCallSignProp).length

/-- An item enters the per-item branch iff its first call_sign property
has a truthy (non-empty) value. -/
def isCustomizable (it : LineItem) : Bool :=
  match findCallSign it with
  | some pr => if pr.value = "" then false else true
  | none => false

/-! ## The per-order pipeline -/

/-- Externally observable calls made while processing one order. -/
inductive Effect where
  | fetchTemplate (key : String)
  | putDesign (key : String)
  | mutateOrder (id : String) (tags : List String) (note : String)
deriving DecidableEq, Repr

/-- The combined tag-add and note-update mutation payload. -/
structure AnnotationUpdate where
  id : String
  tags : List String
  note : String
deriving DecidableEq, Repr

/-- Mutable loop state of the handler: accumulated design links, the
dynamic tag list, and the custom-item counter. -/
structure LoopState where
  links : List String
  tags : List String
  itemIndex : Nat
deriving DecidableEq, Repr

/-- Configuration differing between the live handler and the recovery
script: resolver, URL shape, note-line shape, initial tag list, optional
per-item classification tag, and note header. -/
structure PipelineCfg where
  resolveKey : String → String → String
  mkUrl : Env → String → String
  mkLink : String → Nat → Nat → String → String
  initTags : List String
  itemTag : Option (String → String → String)
  noteHeader : String

/-- The manual-recovery instantiation. -/
def recoveryCfg : PipelineCfg where
  resolveKey := resolveRecovery
  mkUrl := recoveryUrl
  mkLink := mkLinkRecovery
  initTags := ["has_custom_design", "manual_recovery"]
  itemTag := some classificationTag
  noteHeader := "--- Custom Design Files (Manual Recovery) ---"

/-- The live webhook instantiation. -/
def liveCfg : PipelineCfg where
  resolveKey := resolveLive
  mkUrl := liveUrl
  mkLink := mkLinkLive
  initTags := ["has_custom_design"]
  itemTag := none
  noteHeader := "--- Custom Design Files ---"

/-- One iteration of the per-item loop. The first component lists the
store calls attempted; a none second component models an exception thrown
inside the loop body (failed template fetch, archive without a
template.png entry, compositing failure, failed put). -/
def stepItem (cfg : PipelineCfg) (env : Env) (orderName : String) (total : Nat)
    (st : LoopState) (it : LineItem) : List Effect × Option LoopState :=
  match findCallSign it with
  | none => ([], some st)
  | some pr =>
    if pr.value = "" then ([], some st)
    else
      let key := cfg.resolveKey it.title it.variant_title
      match env.templates key with
      | none => ([Effect.fetchTemplate key], none)
      | some bundle =>
        match bundle.find? (fun e => endsWithTemplatePng e.1) with
        | none => ([Effect.fetchTemplate key], none)
        | some tpl =>
          match env.compose tpl.2 with
          | none => ([Effect.fetchTemplate key], none)
          | some raster =>
            match repack bundle raster with
            | none => ([Effect.fetchTemplate key], none)
            | some _ =>
              let k2 := designKey orderName it.id env.now
              let newTags := st.tags ++
                (match cfg.itemTag with
                 | some f => [f it.variant_title pr.value]
                 | none => [])
              if env.putOk k2 then
                ([Effect.fetchTemplate key, Effect.putDesign k2],
                 some { links := st.links ++
                          [cfg.mkLink orderName (st.itemIndex + 1) total (cfg.mkUrl env k2)],
                        tags := newTags,
                        itemIndex := st.itemIndex + 1 })
              else ([Effect.fetchTemplate key, Effect.putDesign k2], none)

/-- The item loop. An exception in one item aborts the rest of the loop
(the sources have a single try block around the whole handler body); the
boolean records whether the loop ran to completion. -/
def runItemsAux (cfg : PipelineCfg) (env : Env) (orderName : String) (total : Nat) :
    LoopState → List LineItem → List Effect × LoopState × Bool
  | st, [] => ([], st, true)
  | st, it :: rest =>
    match stepItem cfg env orderName total st it with
    | (eff, some st2) =>
      let r := runItemsAux cfg env orderName total st2 rest
      (eff ++ r.1, r.2.1, r.2.2)
    | (eff, none) => (eff, st, false)

/-- Initial loop state. -/
def initState (cfg : PipelineCfg) : LoopState :=
  { links := [], tags := cfg.initTags, itemIndex := 0 }

/-- Result of processing one order payload. -/
structure RunOutcome where
  effects : List Effect
  state : LoopState
  ok : Bool
  annotated : Option AnnotationUpdate
deriving DecidableEq, Repr

/-- The whole handler body: run the item loop; when it completed without
an exception and produced at least one link, issue the combined tag and
note mutation; otherwise leave the order untouched. An exception anywhere
is caught by the order-level catch, which only logs. -/
def processOrder (cfg : PipelineCfg) (env : Env) (p : OrderPayload) : RunOutcome :=
  match runItemsAux cfg env p.name (totalCustomItems p) (initState cfg) p.line_items with
  | (effs, st, ok) =>
    if ok then
      if st.links.length > 0 then
        let upd : AnnotationUpdate :=
          { id := p.admin_graphql_api_id, tags := st.tags,
            note := buildNote p.note cfg.noteHeader st.links }
        { effects := effs ++ [Effect.mutateOrder upd.id upd.tags upd.note],
          state := st, ok := true, annotated := some upd }
      else { effects := effs, state := st, ok := true, annotated := none }
    else { effects := effs, state := st, ok := false, annotated := none }

/-- processOrderPayload of manual-recovery.js. -/
def processOrderPayload (env : Env) (p : OrderPayload) : RunOutcome :=
  processOrder recoveryCfg env p

/-- webhookHandler of the live server. -/
def webhookHandler (env : Env) (p : OrderPayload) : RunOutcome :=
  processOrder liveCfg env p

/-! ## The recovery orchestrator (main) -/

/-- Trailing numeric segment of a GraphQL global id, as the split and pop
followed by the Number conversion. -/
def extractNumericId (gid : String) : Nat :=
  (((gid.splitOn "/").getLastD "").toNat?).getD 0

/-- Reshaping of an order-query node into the webhook payload contract. -/
def formatPayload (node : OrderNode) : OrderPayload where
  name := node.name
  note := node.note
  admin_graphql_api_id := node.id
  line_items := node.lineItems.map fun li =>
    { id := extractNumericId li.id
      title := li.title
      variant_title := li.variantTitle
      properties := li.customAttributes.map fun a => { name := a.key, value := a.value } }

/-- What main does with one row of the order list. -/
inductive MainStatus where
  | emptyName
  | notFound
  | skipped
  | processed (r : RunOutcome)
deriving DecidableEq, Repr

/-- One iteration of the main loop of the recovery script: skip falsy
names, query the order, skip it when it already carries the marker tag,
otherwise reshape and process it. -/
def mainStep (env : Env) (orderName : String) : MainStatus :=
  if orderName = "" then .emptyName
  else
    match env.queryOrder orderName with
    | none => .notFound
    | some node =>
      if node.tags.contains "has_custom_design" then .skipped
      else .processed (processOrderPayload env (formatPayload node))

/-- Store and mutation calls made by one main-loop iteration. -/
def mainEffects : MainStatus → List Effect
  | .processed r => r.effects
  | _ => []

/-- The whole main loop over the order-name list. -/
def mainRun (env : Env) (names : List String) : List MainStatus :=
  names.map (mainStep env)

/-! ## Spec-worded reference definitions

These follow the words of the specification claims (not the source) and
exist to be compared with the source-derived definitions above. -/

/-- Spec-worded resolver of claim C8: the uppercased, underscore-joined
title followed by the light or dark suffix, with no escaping step. -/
def specResolveNoEscape (title variant : String) : String :=
  wsToUnderscore (jsToUpper title) ++
    (if isLightVariant variant then "_FOR_LIGHT.zip" else "_FOR_DARK.zip")

/-- Spec-worded escaping of claim C4: every hyphen is doubled. -/
def specEscapeAllHyphens (s : String) : String :=
  ⟨s.data.foldr (fun c acc => if c = '-' then '-' :: '-' :: acc else c :: acc) []⟩

/-! ## Derived descriptions of the loop output -/

/-- Call-sign text of an item (empty when absent). -/
def callSignOf (it : LineItem) : String :=
  match findCallSign it with
  | some pr => pr.value
  | none => ""

/-- Number of items that enter the per-item branch. -/
def countCustom (l : List LineItem) : Nat :=
  (l.filter isCustomizable).length

/-- Links the loop produces when every external call succeeds: one line
per item whose first call_sign property value is non-empty, numbered from
idx upward, with the denominator fixed at total. -/
def expLinksFrom (cfg : PipelineCfg) (env : Env) (orderName : String) (total : Nat) :
    Nat → List LineItem → List String
  | _, [] => []
  | idx, it :: rest =>
    if isCustomizable it then
      cfg.mkLink orderName (idx + 1) total
          (cfg.mkUrl env (designKey orderName it.id env.now)) ::
        expLinksFrom cfg env orderName total (idx + 1) rest
    else expLinksFrom cfg env orderName total idx rest

/-- Tags the loop appends when every external call succeeds: one derived
tag per item entering the per-item branch, when the configuration has a
per-item tag rule. -/
def expTagsFrom (cfg : PipelineCfg) : List LineItem → List String
  | [] => []
  | it :: rest =>
    if isCustomizable it then
      (match cfg.itemTag with
       | some f => [f it.variant_title (callSignOf it)]
       | none => []) ++ expTagsFrom cfg rest
    else expTagsFrom cfg rest

/-- An environment where every template fetch succeeds and yields an
archive with a template.png entry, compositing always succeeds, and every
put succeeds. -/
def AllSuccess (env : Env) : Prop :=
  (∀ k, ∃ b e, env.templates k = some b ∧
      b.find? (fun en => endsWithTemplatePng en.1) = some e) ∧
  (∀ bs, ∃ r, env.compose bs = some r) ∧
  (∀ k, env.putOk k = true)

/-! ## Concrete instances for counterexamples and witnesses -/

/-- A minimal well-formed template bundle. -/
def bundle0 : Bundle := [("template.png", [0])]

/-- Environment in which every external call succeeds. -/
def envOK : Env where
  templates := fun _ => some bundle0
  compose := fun _ => some [1]
  putOk := fun _ => true
  now := 5
  region := "r"
  designsBucket := "d"
  queryOrder := fun _ => none

/-- Environment in which only the template key BB_FOR_DARK.zip exists. -/
def envOnlyBB : Env where
  templates := fun k => if k = "BB_FOR_DARK.zip" then some bundle0 else none
  compose := fun _ => some [1]
  putOk := fun _ => true
  now := 5
  region := "r"
  designsBucket := "d"
  queryOrder := fun _ => none

/-- A line item with a non-empty call sign. -/
def itemAa : LineItem :=
  { id := 1, title := "Aa", variant_title := "Black / M",
    properties := [{ name := "call_sign", value := "X" }] }

/-- A second line item with a non-empty call sign and a distinct title. -/
def itemBb : LineItem :=
  { id := 2, title := "Bb", variant_title := "Black / M",
    properties := [{ name := "call_sign", value := "Y" }] }

/-- A line item carrying a call_sign property with an empty value. -/
def itemEmptySign : LineItem :=
  { id := 3, title := "Cc", variant_title := "Black / M",
    properties := [{ name := "call_sign", value := "" }] }

/-- A line item with no call_sign property at all. -/
def itemPlain : LineItem :=
  { id := 4, title := "Dd", variant_title := "Black / M", properties := [] }

/-- Two-custom-item order whose first item has no template in envOnlyBB. -/
def orderTwoItems : OrderPayload :=
  { name := "#Q", note := none, admin_graphql_api_id := "gid-q",
    line_items := [itemAa, itemBb] }

/-- The same order reduced to its second item only. -/
def orderOnlyBb : OrderPayload :=
  { name := "#Q", note := none, admin_graphql_api_id := "gid-q",
    line_items := [itemBb] }

/-- Single-custom-item order for the live-path link format. -/
def orderSingle : OrderPayload :=
  { name := "#W", note := none, admin_graphql_api_id := "gid-w",
    line_items := [itemAa] }

/-- Order with two truthy call signs and one empty-valued call_sign
property, so the counted total is three. -/
def orderEmptyValue : OrderPayload :=
  { name := "#C", note := none, admin_graphql_api_id := "gid-c",
    line_items := [itemAa, itemEmptySign, itemBb] }

/-- Order with no customizable items. -/
def orderNoCustom : OrderPayload :=
  { name := "#N", note := none, admin_graphql_api_id := "gid-n",
    line_items := [itemPlain] }

/-- An order node already carrying the marker tag. -/
def nodeTagged : OrderNode :=
  { id := "gid://shopify/Order/77", name := "#T", note := none,
    tags := ["priority", "has_custom_design"],
    lineItems := [{ id := "gid://shopify/LineItem/9", title := "Aa",
                    variantTitle := "Black / M",
                    customAttributes := [{ key := "call_sign", value := "Z" }] }] }

/-- Environment whose query returns the already-tagged node. -/
def envTagged : Env where
  templates := fun _ => some bundle0
  compose := fun _ => some [1]
  putOk := fun _ => true
  now := 5
  region := "r"
  designsBucket := "d"
  queryOrder := fun n => if n = "#T" then some nodeTagged else none

/-! ## Helper lemmas about the string primitives -/

/-- Replacing a single-character pattern rewrites exactly the first
occurrence and leaves everything after it, later occurrences included. -/
theorem replaceFirst_single (c : Char) (repl : List Char) :
    ∀ (l r : List Char), c ∉ l →
      replaceFirstL [c] repl (l ++ c :: r) = l ++ repl ++ r := by
  intro l
  induction l with
  | nil =>
    intro r _
    simp [replaceFirstL, List.isPrefixOf]
  | cons a l ih =>
    intro r h
    have hac : ¬(c = a) := by
      intro hca; exact h (by simp [hca])
    have hmem : c ∉ l := fun hm => h (List.mem_cons_of_mem a hm)
    simp only [List.cons_append, replaceFirstL, List.isPrefixOf]
    rw [if_neg]
    · simp only [List.append_eq]
      rw [ih r hmem]
    · simp [hac]

/-- A replace whose pattern does not occur is the identity. -/
theorem replaceFirst_not_contains (pat repl : List Char) :
    ∀ s : List Char, containsSubL s pat = false → replaceFirstL pat repl s = s := by
  intro s
  induction s with
  | nil =>
    intro h
    simp [containsSubL, List.isEmpty_iff] at h
    simp [replaceFirstL, h]
  | cons a t ih =>
    intro h
    simp only [containsSubL, Bool.or_eq_false_iff] at h
    simp [replaceFirstL, h.1, ih h.2]

/-- The boolean substring test agrees with the mathematical notion of an
infix occurrence. -/
theorem containsSub_iff (pat : List Char) :
    ∀ hay : List Char, containsSubL hay pat = true ↔ ∃ l r, hay = l ++ pat ++ r := by
  intro hay
  induction hay with
  | nil =>
    constructor
    · intro h
      simp [containsSubL, List.isEmpty_iff] at h
      exact ⟨[], [], by simp [h]⟩
    · rintro ⟨l, r, hl⟩
      have h0 : l ++ pat ++ r = [] := hl.symm
      rcases List.append_eq_nil.mp h0 with ⟨h1, h2⟩
      rcases List.append_eq_nil.mp h1 with ⟨_, h4⟩
      simp [containsSubL, h4]
  | cons a t ih =>
    constructor
    · intro h
      have h2 : pat <+: a :: t ∨ containsSubL t pat = true := by
        simpa [containsSubL] using h
      rcases h2 with hp | hc
      · rcases hp with ⟨s, hs⟩
        exact ⟨[], s, by simp [hs.symm]⟩
      · rcases (ih.mp hc) with ⟨l, r, hl⟩
        exact ⟨a :: l, r, by simp [hl]⟩
    · rintro ⟨l, r, hl⟩
      cases l with
      | nil =>
        have hp : pat.isPrefixOf (a :: t) = true :=
          List.isPrefixOf_iff_prefix.mpr ⟨r, by simpa using hl.symm⟩
        simp [containsSubL, hp]
      | cons x xs =>
        simp only [List.cons_append, List.cons.injEq] at hl
        have : containsSubL t pat = true := ih.mpr ⟨xs, r, hl.2⟩
        simp [containsSubL, this]

/-! ## Helper lemmas about archives -/

/-- An entry with a different path survives a zip file write unchanged. -/
theorem mem_zipSet_of_ne (l : Bundle) (p : String) (d : Bytes) (e : String × Bytes)
    (he : e ∈ l) (hne : e.1 ≠ p) : e ∈ zipSet l p d := by
  unfold zipSet
  split
  · refine List.mem_map.mpr ⟨e, he, ?_⟩
    simp [hne]
  · exact List.mem_append_left _ he

/-- The written entry is present after a zip file write. -/
theorem self_mem_zipSet (l : Bundle) (p : String) (d : Bytes) : (p, d) ∈ zipSet l p d := by
  unfold zipSet
  split
  · next h =>
    rcases List.any_eq_true.mp h with ⟨x, hx, hxp⟩
    refine List.mem_map.mpr ⟨x, hx, ?_⟩
    simp [hxp]
  · simp

/-- Every entry after a zip file write is an old entry or the new one. -/
theorem mem_zipSet_elim (l : Bundle) (p : String) (d : Bytes) (e : String × Bytes)
    (h : e ∈ zipSet l p d) : e ∈ l ∨ e = (p, d) := by
  unfold zipSet at h
  split at h
  · rcases List.mem_map.mp h with ⟨x, hx, hxe⟩
    by_cases hc : x.1 = p
    · right
      simp [hc] at hxe
      exact hxe.symm
    · left
      simp [hc] at hxe
      exact hxe ▸ hx
  · rcases List.mem_append.mp h with h1 | h2
    · exact Or.inl h1
    · right; simpa using h2

/-! ## Helper lemmas about the item loop -/

/-- When every external call succeeds, the loop completes and its final
state is described by the expected links and tags. -/
theorem runItemsAux_char (cfg : PipelineCfg) (env : Env) (nm : String) (total : Nat)
    (hA : AllSuccess env) :
    ∀ (l : List LineItem) (st : LoopState),
      (runItemsAux cfg env nm total st l).2 =
        ({ links := st.links ++ expLinksFrom cfg env nm total st.itemIndex l,
           tags := st.tags ++ expTagsFrom cfg l,
           itemIndex := st.itemIndex + countCustom l }, true) := by
  intro l
  induction l with
  | nil =>
    intro st
    simp [runItemsAux, expLinksFrom, expTagsFrom, countCustom]
  | cons it rest ih =>
    intro st
    cases hf : findCallSign it with
    | none =>
      have hcust : isCustomizable it = false := by simp [isCustomizable, hf]
      have hstep : stepItem cfg env nm total st it = ([], some st) := by
        simp [stepItem, hf]
      simp [runItemsAux, hstep, ih st, expLinksFrom, expTagsFrom, countCustom, hcust]
    | some pr =>
      by_cases hv : pr.value = ""
      · have hcust : isCustomizable it = false := by simp [isCustomizable, hf, hv]
        have hstep : stepItem cfg env nm total st it = ([], some st) := by
          simp [stepItem, hf, hv]
        simp [runItemsAux, hstep, ih st, expLinksFrom, expTagsFrom, countCustom, hcust]
      · have hcust : isCustomizable it = true := by simp [isCustomizable, hf, hv]
        obtain ⟨b, e, hb, hfind⟩ := hA.1 (cfg.resolveKey it.title it.variant_title)
        obtain ⟨ra, hr⟩ := hA.2.1 e.2
        have hput := hA.2.2 (designKey nm it.id env.now)
        have hcs : callSignOf it = pr.value := by simp [callSignOf, hf]
        have hstep : stepItem cfg env nm total st it =
            ([Effect.fetchTemplate (cfg.resolveKey it.title it.variant_title),
              Effect.putDesign (designKey nm it.id env.now)],
             some { links := st.links ++
                      [cfg.mkLink nm (st.itemIndex + 1) total
                        (cfg.mkUrl env (designKey nm it.id env.now))],
                    tags := st.tags ++
                      (match cfg.itemTag with
                       | some f => [f it.variant_title pr.value]
                       | none => []),
                    itemIndex := st.itemIndex + 1 }) := by
          simp [stepItem, hf, hv, hb, hfind, hr, repack, hput]
        simp only [runItemsAux, hstep]
        rw [ih]
        simp only [expLinksFrom, expTagsFrom, countCustom, hcust, if_pos, hcs]
        simp [List.append_assoc, Prod.mk.injEq, LoopState.mk.injEq, List.filter_cons, hcust]
        try omega

/-- The loop body never issues an order mutation. -/
theorem stepItem_no_mutate (cfg : PipelineCfg) (env : Env) (nm : String) (total : Nat)
    (st : LoopState) (it : LineItem) (i : String) (tg : List String) (n : String) :
    Effect.mutateOrder i tg n ∉ (stepItem cfg env nm total st it).1 := by
  cases hf : findCallSign it with
  | none => simp [stepItem, hf]
  | some pr =>
    by_cases hv : pr.value = ""
    · simp [stepItem, hf, hv]
    · cases hb : env.templates (cfg.resolveKey it.title it.variant_title) with
      | none => simp [stepItem, hf, hv, hb]
      | some bundle =>
        cases hfind : bundle.find? (fun e => endsWithTemplatePng e.1) with
        | none => simp [stepItem, hf, hv, hb, hfind]
        | some tpl =>
          cases hc : env.compose tpl.2 with
          | none => simp [stepItem, hf, hv, hb, hfind, hc]
          | some ra =>
            cases hrep : repack bundle ra with
            | none => simp [stepItem, hf, hv, hb, hfind, hc, hrep]
            | some ob =>
              by_cases hput : env.putOk (designKey nm it.id env.now) = true
              · simp [stepItem, hf, hv, hb, hfind, hc, hrep, hput]
              · simp [stepItem, hf, hv, hb, hfind, hc, hrep, hput]

/-- The item loop never issues an order mutation. -/
theorem runItemsAux_no_mutate (cfg : PipelineCfg) (env : Env) (nm : String) (total : Nat)
    (i : String) (tg : List String) (n : String) :
    ∀ (l : List LineItem) (st : LoopState),
      Effect.mutateOrder i tg n ∉ (runItemsAux cfg env nm total st l).1 := by
  intro l
  induction l with
  | nil => intro st; simp [runItemsAux]
  | cons it rest ih =>
    intro st
    have hs := stepItem_no_mutate cfg env nm total st it i tg n
    unfold runItemsAux
    cases h : stepItem cfg env nm total st it with
    | mk eff ost =>
      rw [h] at hs
      cases ost with
      | some st2 =>
        simp only [List.mem_append]
        rintro (h1 | h2)
        · exact hs h1
        · exact ih st2 h2
      | none => exact hs

/-- A list of items none of which is customizable leaves the loop state
untouched and performs no store call. -/
theorem runItemsAux_all_skip (cfg : PipelineCfg) (env : Env) (nm : String) (total : Nat) :
    ∀ (l : List LineItem) (st : LoopState), (∀ it ∈ l, isCustomizable it = false) →
      runItemsAux cfg env nm total st l = ([], st, true) := by
  intro l
  induction l with
  | nil => intro st _; simp [runItemsAux]
  | cons it rest ih =>
    intro st h
    have hit : isCustomizable it = false := h it (by simp)
    have hstep : stepItem cfg env nm total st it = ([], some st) := by
      unfold isCustomizable at hit
      cases hf : findCallSign it with
      | none => simp [stepItem, hf]
      | some pr =>
        rw [hf] at hit
        by_cases hv : pr.value = ""
        · simp [stepItem, hf, hv]
        · simp [hv] at hit
    have hrest := ih st (fun x hx => h x (List.mem_cons_of_mem it hx))
    simp [runItemsAux, hstep, hrest]

/-- An exception in one item ends the loop there: the effect trace stops
at the failing item, the state is the one reached before it, and the
completion flag is false. -/
theorem runItemsAux_abort (cfg : PipelineCfg) (env : Env) (nm : String) (total : Nat) :
    ∀ (pre : List LineItem) (st : LoopState) (e1 : List Effect) (st1 : LoopState),
      runItemsAux cfg env nm total st pre = (e1, st1, true) →
      ∀ (it : LineItem) (post : List LineItem) (e2 : List Effect),
        stepItem cfg env nm total st1 it = (e2, none) →
        runItemsAux cfg env nm total st (pre ++ it :: post) = (e1 ++ e2, st1, false) := by
  intro pre
  induction pre with
  | nil =>
    intro st e1 st1 hrun it post e2 hstep
    simp [runItemsAux] at hrun
    obtain ⟨he1, hst1⟩ := hrun
    subst he1; subst hst1
    simp [runItemsAux, hstep]
  | cons a pre ih =>
    intro st e1 st1 hrun it post e2 hstep
    unfold runItemsAux at hrun
    cases ha : stepItem cfg env nm total st a with
    | mk effa osta =>
      rw [ha] at hrun
      cases osta with
      | some sta =>
        simp only [Prod.mk.injEq] at hrun
        obtain ⟨he, hst, hok⟩ := hrun
        have hpre : runItemsAux cfg env nm total sta pre =
            ((runItemsAux cfg env nm total sta pre).1, st1, true) := by
          rw [← hst, ← hok]
        have hrec := ih sta (runItemsAux cfg env nm total sta pre).1 st1 hpre it post e2 hstep
        show runItemsAux cfg env nm total st ((a :: pre) ++ it :: post) = _
        simp only [List.cons_append, runItemsAux, ha, hrec]
        rw [← he]
        simp [hrec, List.append_assoc]
      | none => simp at hrun

/-- The expected-links list has one element per customizable item. -/
theorem expLinksFrom_length (cfg : PipelineCfg) (env : Env) (nm : String) (total : Nat) :
    ∀ (l : List LineItem) (idx : Nat),
      (expLinksFrom cfg env nm total idx l).length = countCustom l := by
  intro l
  induction l with
  | nil => intro idx; simp [expLinksFrom, countCustom]
  | cons it rest ih =>
    intro idx
    by_cases h : isCustomizable it = true
    · simp [expLinksFrom, h, countCustom, List.filter_cons, ih]
    · simp only [Bool.not_eq_true] at h
      simp [expLinksFrom, h, countCustom, List.filter_cons, ih]

/-- Every expected link is built by the configured line format with the
fixed denominator. -/
theorem mem_expLinksFrom (cfg : PipelineCfg) (env : Env) (nm : String) (total : Nat) :
    ∀ (l : List LineItem) (idx : Nat) (s : String),
      s ∈ expLinksFrom cfg env nm total idx l → ∃ i u, s = cfg.mkLink nm i total u := by
  intro l
  induction l with
  | nil => intro idx s h; simp [expLinksFrom] at h
  | cons it rest ih =>
    intro idx s h
    by_cases hc : isCustomizable it = true
    · simp only [expLinksFrom, hc, if_pos, List.mem_cons] at h
      rcases h with h | h
      · exact ⟨idx + 1, cfg.mkUrl env (designKey nm it.id env.now), h⟩
      · exact ih (idx + 1) s h
    · simp only [Bool.not_eq_true] at hc
      simp only [expLinksFrom, hc] at h
      exact ih idx s (by simpa using h)

/-- The live configuration derives no per-item tags. -/
theorem expTagsFrom_liveCfg : ∀ l : List LineItem, expTagsFrom liveCfg l = [] := by
  intro l
  induction l with
  | nil => simp [expTagsFrom]
  | cons it rest ih =>
    by_cases h : isCustomizable it = true
    · have hnone : liveCfg.itemTag = none := rfl
      simp [expTagsFrom, h, hnone, ih]
    · simp only [Bool.not_eq_true] at h
      simp [expTagsFrom, h, ih]

/-- When every external call succeeds the run completes and the final
state carries exactly the expected links and tags. -/
theorem processOrder_success (cfg : PipelineCfg) (env : Env) (p : OrderPayload)
    (hA : AllSuccess env) :
    (processOrder cfg env p).state =
      { links := expLinksFrom cfg env p.name (totalCustomItems p) 0 p.line_items,
        tags := cfg.initTags ++ expTagsFrom cfg p.line_items,
        itemIndex := countCustom p.line_items } ∧
    (processOrder cfg env p).ok = true := by
  have hchar := runItemsAux_char cfg env p.name (totalCustomItems p) hA p.line_items (initState cfg)
  rcases hr : runItemsAux cfg env p.name (totalCustomItems p) (initState cfg) p.line_items
    with ⟨effs, st, ok⟩
  rw [hr] at hchar
  simp only [initState, Prod.mk.injEq] at hchar
  obtain ⟨hst, hok⟩ := hchar
  subst hst; subst hok
  simp only [processOrder, hr]
  rw [if_pos trivial]
  constructor
  · split <;> simp
  · split <;> rfl

/-- When every external call succeeds the mutation carries exactly the
initial tags plus the expected per-item tags, and is issued iff at least
one link was produced. -/
theorem processOrder_annotated (cfg : PipelineCfg) (env : Env) (p : OrderPayload)
    (hA : AllSuccess env) :
    (processOrder cfg env p).annotated =
      (if 0 < (expLinksFrom cfg env p.name (totalCustomItems p) 0 p.line_items).length then
        some { id := p.admin_graphql_api_id,
               tags := cfg.initTags ++ expTagsFrom cfg p.line_items,
               note := buildNote p.note cfg.noteHeader
                 (expLinksFrom cfg env p.name (totalCustomItems p) 0 p.line_items) }
       else none) := by
  have hchar := runItemsAux_char cfg env p.name (totalCustomItems p) hA p.line_items (initState cfg)
  rcases hr : runItemsAux cfg env p.name (totalCustomItems p) (initState cfg) p.line_items
    with ⟨effs, st, ok⟩
  rw [hr] at hchar
  simp only [initState, Prod.mk.injEq] at hchar
  obtain ⟨hst, hok⟩ := hchar
  subst hst; subst hok
  simp only [processOrder, hr]
  rw [if_pos trivial]
  simp only [List.nil_append]
  split <;> rfl

/-- Outcome when the item loop aborted. -/
theorem processOrder_eq_false (cfg : PipelineCfg) (env : Env) (p : OrderPayload)
    (effs : List Effect) (st : LoopState)
    (hr : runItemsAux cfg env p.name (totalCustomItems p) (initState cfg) p.line_items
      = (effs, st, false)) :
    processOrder cfg env p = { effects := effs, state := st, ok := false, annotated := none } := by
  simp only [processOrder, hr]
  rfl

/-- Outcome when the loop completed with no links. -/
theorem processOrder_eq_true_none (cfg : PipelineCfg) (env : Env) (p : OrderPayload)
    (effs : List Effect) (st : LoopState)
    (hr : runItemsAux cfg env p.name (totalCustomItems p) (initState cfg) p.line_items
      = (effs, st, true))
    (hl : ¬(st.links.length > 0)) :
    processOrder cfg env p = { effects := effs, state := st, ok := true, annotated := none } := by
  simp only [processOrder, hr]
  rw [if_neg hl, if_pos trivial]

/-- Outcome when the loop completed with at least one link. -/
theorem processOrder_eq_true_pos (cfg : PipelineCfg) (env : Env) (p : OrderPayload)
    (effs : List Effect) (st : LoopState)
    (hr : runItemsAux cfg env p.name (totalCustomItems p) (initState cfg) p.line_items
      = (effs, st, true))
    (hl : st.links.length > 0) :
    processOrder cfg env p =
      { effects := effs ++ [Effect.mutateOrder p.admin_graphql_api_id st.tags
          (buildNote p.note cfg.noteHeader st.links)],
        state := st, ok := true,
        annotated := some { id := p.admin_graphql_api_id, tags := st.tags,
                            note := buildNote p.note cfg.noteHeader st.links } } := by
  simp only [processOrder, hr]
  rw [if_pos hl, if_pos trivial]

/-- Every external call succeeds in the concrete environment envOK. -/
theorem allSuccess_envOK : AllSuccess envOK := by
  refine ⟨fun k => ⟨bundle0, ("template.png", [0]), rfl, by decide⟩,
          fun bs => ⟨[1], rfl⟩, fun k => rfl⟩

/-! ## Claim C1 -/

/-- Claim C1, amended: because the handler wraps the whole item loop and
the annotation step in one order-level catch, the failure of processing
one customizable line item aborts the remaining line items and the
annotation step of that order; the effect trace stops at the failing
item, no mutation is issued, and the run is marked as not completed. -/
theorem C1_item_failure_aborts (cfg : PipelineCfg) (env : Env) (p : OrderPayload)
    (pre : List LineItem) (it : LineItem) (post : List LineItem)
    (e1 : List Effect) (st1 : LoopState) (e2 : List Effect)
    (hsplit : p.line_items = pre ++ it :: post)
    (hpre : runItemsAux cfg env p.name (totalCustomItems p) (initState cfg) pre = (e1, st1, true))
    (hfail : stepItem cfg env p.name (totalCustomItems p) st1 it = (e2, none)) :
    (processOrder cfg env p).annotated = none ∧
    (processOrder cfg env p).effects = e1 ++ e2 ∧
    (processOrder cfg env p).ok = false := by
  have habort := runItemsAux_abort cfg env p.name (totalCustomItems p) pre (initState cfg)
    e1 st1 hpre it post e2 hfail
  have hr : runItemsAux cfg env p.name (totalCustomItems p) (initState cfg) p.line_items
      = (e1 ++ e2, st1, false) := by
    rw [hsplit]; exact habort
  rw [processOrder_eq_false cfg env p (e1 ++ e2) st1 hr]
  exact ⟨rfl, rfl, rfl⟩

/-- Witness for C1: in the concrete two-item order whose first template
is missing, the run aborts at the first item. -/
theorem C1_item_failure_aborts_witness :
    (processOrder recoveryCfg envOnlyBB orderTwoItems).annotated = none ∧
    (processOrder recoveryCfg envOnlyBB orderTwoItems).effects
      = [Effect.fetchTemplate "AA_FOR_DARK.zip"] ∧
    (processOrder recoveryCfg envOnlyBB orderTwoItems).ok = false := by
  have h := C1_item_failure_aborts recoveryCfg envOnlyBB orderTwoItems
    [] itemAa [itemBb] [] (initState recoveryCfg) [Effect.fetchTemplate "AA_FOR_DARK.zip"]
    (by decide) (by decide) (by decide)
  simpa using h

/-- Counterexample to C1 as stated: the first item fails (its template is
absent), the second item is processable on its own, yet the run performs
no further call after the failing fetch and the annotation never runs. -/
theorem C1_cex :
    (processOrderPayload envOnlyBB orderTwoItems).annotated = none ∧
    (processOrderPayload envOnlyBB orderTwoItems).effects
      = [Effect.fetchTemplate "AA_FOR_DARK.zip"] ∧
    (processOrderPayload envOnlyBB orderOnlyBb).annotated ≠ none := by
  decide

/-! ## Claim C2 -/

/-- Claim C2, amended: the conditional simplified line belongs only to
the manual-recovery path, and its condition is the counted total (items
bearing a call_sign property) rather than the customizable count; the
live webhook path always emits the counter, including for single-item
orders. -/
theorem C2_link_format (env : Env) (p : OrderPayload) (hA : AllSuccess env) :
    (totalCustomItems p ≤ 1 →
      ∀ s ∈ (processOrderPayload env p).state.links,
        ∃ u : String, s = p.name ++ "-" ++ u ++ ";") ∧
    (∀ s ∈ (webhookHandler env p).state.links,
      ∃ (i : Nat) (u : String), s = p.name ++ "-" ++ toString i ++ "/"
        ++ toString (totalCustomItems p) ++ "-" ++ u ++ ";") := by
  constructor
  · intro ht s hs
    rw [show processOrderPayload env p = processOrder recoveryCfg env p from rfl,
        (processOrder_success recoveryCfg env p hA).1] at hs
    obtain ⟨i, u, hsu⟩ :=
      mem_expLinksFrom recoveryCfg env p.name (totalCustomItems p) p.line_items 0 s hs
    refine ⟨u, ?_⟩
    rw [hsu]
    show mkLinkRecovery p.name i (totalCustomItems p) u = _
    unfold mkLinkRecovery
    rw [if_neg (by omega)]
  · intro s hs
    rw [show webhookHandler env p = processOrder liveCfg env p from rfl,
        (processOrder_success liveCfg env p hA).1] at hs
    obtain ⟨i, u, hsu⟩ :=
      mem_expLinksFrom liveCfg env p.name (totalCustomItems p) p.line_items 0 s hs
    exact ⟨i, u, by rw [hsu]; rfl⟩

/-- Witness for C2: the single-item order produces the simplified line in
the recovery path. -/
theorem C2_link_format_witness :
    totalCustomItems orderSingle ≤ 1 ∧
    (∃ u : String, "#W-https://s3.r.amazonaws.com/d/designs/W-1-5.zip;"
      = orderSingle.name ++ "-" ++ u ++ ";") := by
  refine ⟨by decide, ?_⟩
  exact (C2_link_format envOK orderSingle allSuccess_envOK).1 (by decide) _ (by decide)

/-- Counterexample to C2 as stated: in the live webhook path an order
with exactly one customizable item still gets the one-of-one counter. -/
theorem C2_cex :
    totalCustomItems orderSingle = 1 ∧
    (webhookHandler envOK orderSingle).state.links
      = ["#W-1/1-https://d.s3.r.amazonaws.com/designs/W-1-5.zip;"] ∧
    ("#W-1/1-https://d.s3.r.amazonaws.com/designs/W-1-5.zip;" : String)
      ≠ "#W-https://d.s3.r.amazonaws.com/designs/W-1-5.zip;" := by
  decide

/-! ## Claim C3 -/

/-- Claim C3, amended: one line is emitted per item whose first call_sign
property has a non-empty value, but the denominator in the counter is the
count of items merely bearing a call_sign property, empty values
included, so the two numbers can differ. -/
theorem C3_line_count (env : Env) (p : OrderPayload) (hA : AllSuccess env) :
    (processOrderPayload env p).state.links.length = countCustom p.line_items ∧
    (totalCustomItems p > 1 →
      ∀ s ∈ (processOrderPayload env p).state.links,
        ∃ (i : Nat) (u : String), s = p.name ++ "-" ++ toString i ++ "/"
          ++ toString (totalCustomItems p) ++ "-" ++ u ++ ";") := by
  have hst := (processOrder_success recoveryCfg env p hA).1
  constructor
  · rw [show processOrderPayload env p = processOrder recoveryCfg env p from rfl, hst]
    exact expLinksFrom_length recoveryCfg env p.name (totalCustomItems p) p.line_items 0
  · intro ht s hs
    rw [show processOrderPayload env p = processOrder recoveryCfg env p from rfl, hst] at hs
    obtain ⟨i, u, hsu⟩ :=
      mem_expLinksFrom recoveryCfg env p.name (totalCustomItems p) p.line_items 0 s hs
    refine ⟨i, u, ?_⟩
    rw [hsu]
    show mkLinkRecovery p.name i (totalCustomItems p) u = _
    unfold mkLinkRecovery
    rw [if_pos ht]

/-- Witness for C3 on the order with an empty-valued call_sign item. -/
theorem C3_line_count_witness :
    (processOrderPayload envOK orderEmptyValue).state.links.length
      = countCustom orderEmptyValue.line_items ∧
    (∃ (i : Nat) (u : String), "#C-1/3-https://s3.r.amazonaws.com/d/designs/C-1-5.zip;"
      = orderEmptyValue.name ++ "-" ++ toString i ++ "/"
        ++ toString (totalCustomItems orderEmptyValue) ++ "-" ++ u ++ ";") := by
  refine ⟨(C3_line_count envOK orderEmptyValue allSuccess_envOK).1, ?_⟩
  exact (C3_line_count envOK orderEmptyValue allSuccess_envOK).2 (by decide) _ (by decide)

/-- Counterexample to C3 as stated: with two customizable items plus one
empty-valued call_sign item, two lines are emitted but their denominator
is three, not two. -/
theorem C3_cex :
    countCustom orderEmptyValue.line_items = 2 ∧
    totalCustomItems orderEmptyValue = 3 ∧
    ((processOrderPayload envOK orderEmptyValue).state.links.map
      (fun l => containsSubL l.data "/2".data)) = [false, false] ∧
    ((processOrderPayload envOK orderEmptyValue).state.links.map
      (fun l => containsSubL l.data "/3".data)) = [true, true] := by
  decide

/-! ## Claim C4 -/

/-- Claim C4, amended: the escaping is a string-pattern replace, which
rewrites only the first occurrence. In the live derivation only the first
hyphen of the normalized title is doubled; in the recovery derivation
only the hyphen inside the first occurrence of T-SHIRT is doubled, and a
title whose normalized form does not contain T-SHIRT is left unescaped
altogether. -/
theorem C4_hyphen_escape :
    (∀ (t : String) (l r : List Char),
      (wsToUnderscore (jsToUpper t)).data = l ++ '-' :: r → '-' ∉ l →
        baseFilenameLive t = ⟨l ++ '-' :: '-' :: r⟩) ∧
    (∀ t : String, containsSubL (wsToUnderscore (jsToUpper t)).data "T-SHIRT".data = false →
        baseFilenameRecovery t = wsToUnderscore (jsToUpper t)) := by
  constructor
  · intro t l r hdata hmem
    unfold baseFilenameLive jsReplaceFirst
    show (⟨replaceFirstL ['-'] ['-', '-'] (wsToUnderscore (jsToUpper t)).data⟩ : String) = _
    rw [hdata]
    rw [replaceFirst_single '-' ['-', '-'] l r hmem]
    congr 1
    simp
  · intro t h
    unfold baseFilenameRecovery jsReplaceFirst
    rw [replaceFirst_not_contains _ _ _ h]

/-- Witness for C4 at concrete titles. -/
theorem C4_hyphen_escape_witness :
    baseFilenameLive "A-B C" = "A--B_C" ∧ baseFilenameRecovery "Red-Hat" = "RED-HAT" := by
  constructor
  · have h := (C4_hyphen_escape).1 "A-B C" "A".data "B_C".data (by decide) (by decide)
    rw [h]
    decide
  · have h := (C4_hyphen_escape).2 "Red-Hat" (by decide)
    rw [h]
    decide

/-- Counterexample to C4 as stated: a title with two hyphens does not get
both doubled in the live derivation, and a hyphenated title without
T-SHIRT keeps its hyphen entirely in the recovery derivation. -/
theorem C4_cex :
    baseFilenameLive "A-B-C" = "A--B-C" ∧
    specEscapeAllHyphens (wsToUnderscore (jsToUpper "A-B-C")) = "A--B--C" ∧
    ("A--B-C" : String) ≠ "A--B--C" ∧
    baseFilenameRecovery "Red-Hat" = "RED-HAT" ∧
    specEscapeAllHyphens (wsToUnderscore (jsToUpper "Red-Hat")) = "RED--HAT" ∧
    ("RED-HAT" : String) ≠ "RED--HAT" := by
  decide

/-! ## Claim C5 -/

/-- Claim C5: when the loop yields no successful link the annotator is
not invoked and no mutation call is issued; in particular an order with
zero customizable line items produces no external call at all. -/
theorem C5_no_links_no_mutation (env : Env) (p : OrderPayload) :
    ((processOrderPayload env p).state.links = [] →
      (processOrderPayload env p).annotated = none ∧
      ∀ i tg n, Effect.mutateOrder i tg n ∉ (processOrderPayload env p).effects) ∧
    ((∀ it ∈ p.line_items, isCustomizable it = false) →
      (processOrderPayload env p).effects = [] ∧
      (processOrderPayload env p).annotated = none) := by
  constructor
  · rcases hr : runItemsAux recoveryCfg env p.name (totalCustomItems p)
      (initState recoveryCfg) p.line_items with ⟨effs, st, ok⟩
    intro h
    have hnm : ∀ i tg n, Effect.mutateOrder i tg n ∉ effs := by
      intro i tg n
      have hx := runItemsAux_no_mutate recoveryCfg env p.name (totalCustomItems p) i tg n
        p.line_items (initState recoveryCfg)
      rw [hr] at hx
      exact hx
    unfold processOrderPayload at h ⊢
    cases ok with
    | false =>
      rw [processOrder_eq_false recoveryCfg env p effs st hr]
      exact ⟨rfl, hnm⟩
    | true =>
      by_cases hl : st.links.length > 0
      · rw [processOrder_eq_true_pos recoveryCfg env p effs st hr hl] at h
        have hempty : st.links = [] := h
        rw [hempty] at hl
        simp at hl
      · rw [processOrder_eq_true_none recoveryCfg env p effs st hr hl]
        exact ⟨rfl, hnm⟩
  · intro h
    have hr := runItemsAux_all_skip recoveryCfg env p.name (totalCustomItems p) p.line_items
      (initState recoveryCfg) h
    unfold processOrderPayload
    rw [processOrder_eq_true_none recoveryCfg env p [] (initState recoveryCfg) hr
      (by simp [initState])]
    exact ⟨rfl, rfl⟩

/-- Witness for C5 on an order with no customizable item. -/
theorem C5_no_links_no_mutation_witness :
    (processOrderPayload envOK orderNoCustom).effects = [] ∧
    (processOrderPayload envOK orderNoCustom).annotated = none :=
  (C5_no_links_no_mutation envOK orderNoCustom).2 (by decide)

/-! ## Claim C6 -/

/-- Claim C6, amended: repackaging preserves every entry that does not
match the templatable pattern and is not itself named design.png (such an
entry is overwritten by the replacement raster, since the archive writer
replaces an existing path); the output contains no entry ending in
template.png and always contains design.png holding the replacement. -/
theorem C6_repack_spec (bundle : Bundle) (raster : Bytes) (out : Bundle)
    (h : repack bundle raster = some out) :
    (∀ e ∈ bundle, endsWithTemplatePng e.1 = false → e.1 ≠ "design.png" → e ∈ out) ∧
    (∀ e ∈ out, endsWithTemplatePng e.1 = false) ∧
    ("design.png", raster) ∈ out := by
  unfold repack at h
  cases hf : bundle.find? (fun e => endsWithTemplatePng e.1) with
  | none => rw [hf] at h; simp at h
  | some tpl =>
    rw [hf] at h
    simp only [Option.some.injEq] at h
    subst h
    refine ⟨?_, ?_, self_mem_zipSet _ _ _⟩
    · intro e he hbnd hne
      apply mem_zipSet_of_ne
      · exact List.mem_filter.mpr ⟨he, by simp [hbnd]⟩
      · exact hne
    · intro e he
      rcases mem_zipSet_elim _ _ _ _ he with h1 | h2
      · have := List.mem_filter.mp h1
        simpa using this.2
      · rw [h2]
        show endsWithTemplatePng "design.png" = false
        decide

/-- Witness for C6 on a concrete bundle. -/
theorem C6_repack_spec_witness :
    repack [("a.txt", [1]), ("x/template.png", [2])] [9] =
      some [("a.txt", [1]), ("design.png", [9])] ∧
    ("design.png", ([9] : Bytes)) ∈ ([("a.txt", ([1] : Bytes)), ("design.png", [9])] : Bundle) := by
  constructor
  · decide
  · exact (C6_repack_spec [("a.txt", [1]), ("x/template.png", [2])] [9]
      [("a.txt", [1]), ("design.png", [9])] (by decide)).2.2

/-- Counterexample to C6 as stated: a bundle containing a sibling file
already named design.png does not keep that sibling byte-for-byte; the
replacement raster overwrites it. -/
theorem C6_cex :
    repack [("design.png", [1]), ("kit/template.png", [2])] [9] = some [("design.png", [9])] ∧
    endsWithTemplatePng "design.png" = false ∧
    ("design.png", ([1] : Bytes)) ∉ ([("design.png", ([9] : Bytes))] : Bundle) := by
  decide

/-! ## Claim C7 -/

/-- Claim C7: the replay orchestrator skips an order whose current tag
set contains the marker tag: the iteration performs no store call and no
mutation, and the loop continues with the next order. -/
theorem C7_replay_skips_marked (env : Env) (name : String) (node : OrderNode)
    (hname : ¬(name = ""))
    (hq : env.queryOrder name = some node)
    (htag : node.tags.contains "has_custom_design" = true) :
    mainStep env name = MainStatus.skipped ∧
    mainEffects (mainStep env name) = [] ∧
    ∀ rest : List String, mainRun env (name :: rest) = MainStatus.skipped :: mainRun env rest := by
  have hmem : "has_custom_design" ∈ node.tags := by simpa using htag
  have h1 : mainStep env name = MainStatus.skipped := by
    simp [mainStep, hname, hq, hmem]
  exact ⟨h1, by simp [h1, mainEffects], fun rest => by simp [mainRun, h1]⟩

/-- Witness for C7 on the concrete tagged order. -/
theorem C7_replay_skips_marked_witness :
    mainStep envTagged "#T" = MainStatus.skipped ∧
    mainEffects (mainStep envTagged "#T") = [] ∧
    ∀ rest : List String,
      mainRun envTagged ("#T" :: rest) = MainStatus.skipped :: mainRun envTagged rest :=
  C7_replay_skips_marked envTagged "#T" nodeTagged (by decide) (by decide) (by decide)

/-! ## Claim C8 -/

/-- Claim C8, amended: the resolved key is the uppercased,
whitespace-to-underscore normalized title with the first occurrence of
T-SHIRT escaped, followed by the light suffix exactly when the lowercased
variant descriptor contains white or golden yellow as a substring, and by
the dark suffix otherwise. -/
theorem C8_resolver_characterization (t v : String) :
    (isLightVariant v = true ↔
      (∃ l r, (jsToLower v).data = l ++ "white".data ++ r) ∨
      (∃ l r, (jsToLower v).data = l ++ "golden yellow".data ++ r)) ∧
    (isLightVariant v = true →
      resolveRecovery t v = baseFilenameRecovery t ++ "_FOR_LIGHT.zip") ∧
    (isLightVariant v = false →
      resolveRecovery t v = baseFilenameRecovery t ++ "_FOR_DARK.zip") := by
  refine ⟨?_, ?_, ?_⟩
  · unfold isLightVariant jsIncludes
    rw [Bool.or_eq_true]
    rw [containsSub_iff, containsSub_iff]
  · intro h; simp [resolveRecovery, h]
  · intro h; simp [resolveRecovery, h]

/-- Witness for C8: the concrete example of the specification. -/
theorem C8_resolver_characterization_witness :
    isLightVariant "White / L" = true ∧
    resolveRecovery "Classic Cap" "White / L" = "CLASSIC_CAP_FOR_LIGHT.zip" := by
  constructor
  · decide
  · have h := (C8_resolver_characterization "Classic Cap" "White / L").2.1 (by decide)
    rw [h]
    decide

/-- Counterexample to C8 as stated: a hyphenated title is escaped by the
resolver, so the key is not the plainly uppercased underscore-joined
title. -/
theorem C8_cex :
    resolveRecovery "T-Shirt" "Black / M" = "T--SHIRT_FOR_DARK.zip" ∧
    specResolveNoEscape "T-Shirt" "Black / M" = "T-SHIRT_FOR_DARK.zip" ∧
    resolveRecovery "T-Shirt" "Black / M" ≠ specResolveNoEscape "T-Shirt" "Black / M" := by
  decide

/-! ## Claim C9 -/

/-- Claim C9, amended: the recovery path applies the marker tag, the
manual_recovery extra tag and one classification tag per customizable
item; the live webhook path applies only the marker tag and derives no
classification tags. -/
theorem C9_tags_applied (env : Env) (p : OrderPayload) (hA : AllSuccess env) :
    (∀ u, (processOrderPayload env p).annotated = some u →
      u.tags = ["has_custom_design", "manual_recovery"] ++ expTagsFrom recoveryCfg p.line_items) ∧
    (∀ u, (webhookHandler env p).annotated = some u → u.tags = ["has_custom_design"]) := by
  constructor
  · intro u hu
    rw [show processOrderPayload env p = processOrder recoveryCfg env p from rfl,
        processOrder_annotated recoveryCfg env p hA] at hu
    split at hu
    · simp only [Option.some.injEq] at hu
      rw [← hu]
      rfl
    · exact absurd hu (by simp)
  · intro u hu
    rw [show webhookHandler env p = processOrder liveCfg env p from rfl,
        processOrder_annotated liveCfg env p hA] at hu
    split at hu
    · simp only [Option.some.injEq] at hu
      rw [← hu]
      simp only [expTagsFrom_liveCfg, List.append_nil]
      rfl
    · exact absurd hu (by simp)

/-- Witness for C9 on the single-item order in the recovery path. -/
theorem C9_tags_applied_witness :
    (processOrderPayload envOK orderSingle).annotated =
      some { id := "gid-w",
             tags := ["has_custom_design", "manual_recovery", "Black/M/X"],
             note := "--- Custom Design Files (Manual Recovery) ---\n#W-https://s3.r.amazonaws.com/d/designs/W-1-5.zip;" } ∧
    ["has_custom_design", "manual_recovery", "Black/M/X"]
      = ["has_custom_design", "manual_recovery"] ++ expTagsFrom recoveryCfg orderSingle.line_items := by
  refine ⟨by decide, ?_⟩
  exact ((C9_tags_applied envOK orderSingle allSuccess_envOK).1
    { id := "gid-w",
      tags := ["has_custom_design", "manual_recovery", "Black/M/X"],
      note := "--- Custom Design Files (Manual Recovery) ---\n#W-https://s3.r.amazonaws.com/d/designs/W-1-5.zip;" }
    (by decide)).symm

/-- Counterexample to C9 as stated: the live path annotates the order
with the marker tag only; the classification tag of its customizable item
is not applied. -/
theorem C9_cex :
    (webhookHandler envOK orderSingle).annotated =
      some { id := "gid-w", tags := ["has_custom_design"],
             note := "--- Custom Design Files ---\n#W-1/1-https://d.s3.r.amazonaws.com/designs/W-1-5.zip;" } ∧
    classificationTag "Black / M" "X" = "Black/M/X" ∧
    ("Black/M/X" : String) ∉ (["has_custom_design"] : List String) := by
  decide

/-! ## Claim C10 -/

/-- Claim C10: the designs-bucket key removes only the first hash sign of
the order name (a string-pattern replace), keeps any later hash signs,
and appends the item id, the clock value and the fixed zip extension
under the designs/ folder. -/
theorem C10_design_key (a b : List Char) (itemId ts : Nat) (h : '#' ∉ a) :
    designKey ⟨a ++ '#' :: b⟩ itemId ts =
      "designs/" ++ (⟨a ++ b⟩ : String) ++ "-" ++ toString itemId ++ "-"
        ++ toString ts ++ ".zip" := by
  unfold designKey jsReplaceFirst
  have hrepl := replaceFirst_single '#' ([] : List Char) a b h
  show "designs/" ++ (⟨replaceFirstL ['#'] [] (a ++ '#' :: b)⟩ : String) ++ "-" ++
      toString itemId ++ "-" ++ toString ts ++ ".zip" = _
  rw [hrepl]
  simp

/-- Witness for C10 on an order name with two hash signs. -/
theorem C10_design_key_witness :
    designKey "AB#12#34" 7 99 = "designs/AB12#34-7-99.zip" := by
  have h := C10_design_key "AB".data "12#34".data 7 99 (by decide)
  rw [show ("AB#12#34" : String) = ⟨"AB".data ++ '#' :: "12#34".data⟩ by decide]
  rw [h]
  decide

end ShopifyCustomDesign
